import Mathlib

/-!
Shallow embedding of the financial-mathematics engine
(`src/utils/matematicas_financieras.py`).

Modelling conventions:
* Python floats are modelled by exact rationals `ℚ`; the floating-point
  behaviour itself is not modelled, only the real arithmetic the source
  expresses.
* A Python call that raises an exception is modelled by `Option`/`Except`
  with `none`/`.error` for the raising branch.
* `float('inf')`, used by `payback_period` as the "never recovers"
  sentinel, is modelled by `Option.none`.
* numpy's scalar-or-array duality is modelled by the type `NV`; 1-D
  broadcasting follows numpy's rule (lengths must agree or be 1, a
  length mismatch raises, modelled as `.error ()`).
* Python's `**` on a possibly non-integral exponent is modelled by
  `fpow`, which is exact on integral exponents (the only exponents the
  statements below evaluate); a non-integral exponent yields the junk
  value 0 and is never relied upon.
-/

unseal Rat.add Rat.mul Rat.sub Rat.inv Rat.ofScientific

namespace MatFin

/-- Python `x ** e` for rational `x`, `e`: exact when `e` is an integer,
junk value `0` otherwise (never exercised by the theorems below). -/
def fpow (x e : ℚ) : ℚ :=
  if e.den = 1 then x ^ e.num else 0

/-- `numpy_financial.pmt rate nper pv fv` (payment convention `when = 0`):
the unique `pmt` with `fv + pv*(1+rate)^nper + pmt*((1+rate)^nper - 1)/rate = 0`;
at `rate = 0` the degenerate form `-(fv + pv)/nper`. -/
def npfPmt (rate nper pv fv : ℚ) : ℚ :=
  if rate = 0 then -(fv + pv) / nper
  else -(fv + pv * fpow (1 + rate) nper) * (rate / (fpow (1 + rate) nper - 1))

/-- `numpy_financial.fv rate nper pmt pv` (`when = 0`):
`-(pv*(1+rate)^nper + pmt*((1+rate)^nper - 1)/rate)`;
at `rate = 0` the degenerate form `-(pv + pmt*nper)`. -/
def npfFvAux (rate nper pmt pv : ℚ) : ℚ :=
  if rate = 0 then -(pv + pmt * nper)
  else -(pv * fpow (1 + rate) nper + pmt * ((fpow (1 + rate) nper - 1) / rate))

/-- Scalar kernel of `present_value(rate, nper, pmt, fv)`:
the source returns `-npf.pv(rate, nper, pmt, fv)`. -/
def pvScalar (rate nper pmt fv : ℚ) : ℚ :=
  if rate = 0 then fv + pmt * nper
  else (fv + pmt * ((fpow (1 + rate) nper - 1) / rate)) / fpow (1 + rate) nper

/-- Scalar kernel of `future_value(pv, rate, nper, pmt)`:
the source returns `-npf.fv(rate, nper, pmt, -pv)`. -/
def fvScalar (pv rate nper pmt : ℚ) : ℚ :=
  -(npfFvAux rate nper pmt (-pv))

/-- Scalar kernel of `payment_amount(rate, nper, pv, fv)`:
the source returns `-npf.pmt(rate, nper, pv, fv)`. -/
def pmtScalar (rate nper pv fv : ℚ) : ℚ :=
  -(npfPmt rate nper pv fv)

/-- `numpy_financial.ipmt rate per nper pv fv` (`when = 0`):
`rate` times the remaining balance `npf.fv(rate, per - 1, npf.pmt(...), pv)`. -/
def npfIpmt (rate per nper pv fv : ℚ) : ℚ :=
  npfFvAux rate (per - 1) (npfPmt rate nper pv fv) pv * rate

/-- Scalar kernel of `payment_interest(rate, per, nper, pv, fv)`:
the source returns `-npf.ipmt(rate, per, nper, pv, fv)`. -/
def ipmtScalar (rate per nper pv fv : ℚ) : ℚ :=
  -(npfIpmt rate per nper pv fv)

/-- Scalar kernel of `payment_principal(rate, per, nper, pv, fv)`:
the source returns `-npf.ppmt = -(npf.pmt - npf.ipmt)`. -/
def ppmtScalar (rate per nper pv fv : ℚ) : ℚ :=
  -(npfPmt rate nper pv fv - npfIpmt rate per nper pv fv)

/-- A numpy-style dual value: a Python scalar or a 1-D array. -/
inductive NV where
  | scalar (x : ℚ)
  | arr (xs : List ℚ)
deriving DecidableEq

/-- `np.isscalar`. -/
def NV.isScalar : NV → Bool
  | .scalar _ => true
  | .arr _ => false

/-- Element of a dual value under numpy broadcasting at index `i`
(scalars and length-1 arrays repeat their single element). -/
def NV.bget : NV → ℕ → ℚ
  | .scalar x, _ => x
  | .arr xs, i => if xs.length = 1 then xs.headD 0 else xs.getD i 0

/-- Lengths of the array-shaped arguments of an operation. -/
def nvLens (args : List NV) : List ℕ :=
  args.filterMap fun v =>
    match v with
    | .scalar _ => none
    | .arr xs => some xs.length

/-- numpy 1-D broadcast of a list of array lengths: all lengths other
than 1 must agree; the common result length (1 when all are 1), `none`
when the shapes cannot be broadcast. -/
def commonLen (ls : List ℕ) : Option ℕ :=
  match ls.filter (fun n => n != 1) with
  | [] => some 1
  | c :: rest => if rest.all (fun n => n == c) then some c else none

/-- Broadcast application of a binary numpy ufunc; `.error ()` models the
`ValueError` numpy raises on incompatible shapes. -/
def bapp2 (f : ℚ → ℚ → ℚ) (a b : NV) : Except Unit NV :=
  let ls := nvLens [a, b]
  if ls.isEmpty then .ok (.scalar (f (a.bget 0) (b.bget 0)))
  else
    match commonLen ls with
    | some L => .ok (.arr ((List.range L).map fun i => f (a.bget i) (b.bget i)))
    | none => .error ()

/-- Broadcast application of a 4-ary numpy-vectorized formula. -/
def bapp4 (f : ℚ → ℚ → ℚ → ℚ → ℚ) (a b c d : NV) : Except Unit NV :=
  let ls := nvLens [a, b, c, d]
  if ls.isEmpty then .ok (.scalar (f (a.bget 0) (b.bget 0) (c.bget 0) (d.bget 0)))
  else
    match commonLen ls with
    | some L => .ok (.arr ((List.range L).map fun i => f (a.bget i) (b.bget i) (c.bget i) (d.bget i)))
    | none => .error ()

/-- Broadcast application of a 5-ary numpy-vectorized formula. -/
def bapp5 (f : ℚ → ℚ → ℚ → ℚ → ℚ → ℚ) (a b c d e : NV) : Except Unit NV :=
  let ls := nvLens [a, b, c, d, e]
  if ls.isEmpty then .ok (.scalar (f (a.bget 0) (b.bget 0) (c.bget 0) (d.bget 0) (e.bget 0)))
  else
    match commonLen ls with
    | some L => .ok (.arr ((List.range L).map fun i => f (a.bget i) (b.bget i) (c.bget i) (d.bget i) (e.bget i)))
    | none => .error ()

/-- `present_value(rate, nper, pmt, fv=0)`: dual-mode wrapper of
`-npf.pv`; returns a scalar exactly when every input is a scalar. -/
def present_value (rate nper pmt fv : NV) : Except Unit NV :=
  bapp4 pvScalar rate nper pmt fv

/-- `future_value(pv, rate, nper=1, pmt=0)`: dual-mode wrapper of
`-npf.fv(rate, nper, pmt, -pv)`. -/
def future_value (pv rate nper pmt : NV) : Except Unit NV :=
  bapp4 fvScalar pv rate nper pmt

/-- `payment_amount(rate, nper, pv, fv=0)`: dual-mode wrapper of
`-npf.pmt`. -/
def payment_amount (rate nper pv fv : NV) : Except Unit NV :=
  bapp4 pmtScalar rate nper pv fv

/-- `payment_interest(rate, per, nper, pv, fv=0)`: dual-mode wrapper of
`-npf.ipmt`. -/
def payment_interest (rate per nper pv fv : NV) : Except Unit NV :=
  bapp5 ipmtScalar rate per nper pv fv

/-- `payment_principal(rate, per, nper, pv, fv=0)`: dual-mode wrapper of
`-npf.ppmt`. -/
def payment_principal (rate per nper pv fv : NV) : Except Unit NV :=
  bapp5 ppmtScalar rate per nper pv fv

/-- Result mapping of `batch_loan_analysis`. -/
structure BatchResult where
  payments : NV
  first_interest : NV
  first_principal : NV
  total_paid : NV
  total_interest : NV
  interest_ratio : NV

/-- `batch_loan_analysis(principals, rates, periods)`: exactly as in the
source, the three arrays are passed *positionally* into
`payment_amount(rate, nper, pv)` / `payment_interest(rate, per, nper, pv)` /
`payment_principal(rate, per, nper, pv)` — i.e. `principals` lands in the
`rate` slot, `rates` in the `nper` (resp. `per`) slot and `periods` in the
`pv` (resp. `nper`) slot. -/
def batch_loan_analysis (principals rates periods : List ℚ) : Except Unit BatchResult := do
  let payments ← payment_amount (.arr principals) (.arr rates) (.arr periods) (.scalar 0)
  let fi ← payment_interest (.arr principals) (.arr rates) (.scalar 1) (.arr periods) (.scalar 0)
  let fp ← payment_principal (.arr principals) (.arr rates) (.scalar 1) (.arr periods) (.scalar 0)
  let tp ← bapp2 (fun x y => x * y) payments (.arr periods)
  let ti ← bapp2 (fun x y => x - y) tp (.arr principals)
  let ir ← bapp2 (fun x y => x / y) ti (.arr principals)
  pure ⟨payments, fi, fp, tp, ti, ir⟩

/-- `nominal_to_effective_rate(r, m) = r / m`; Python raises
`ZeroDivisionError` at `m = 0` (modelled `none`) and performs no other
validation. -/
def nominal_to_effective_rate (r : ℚ) (m : ℤ) : Option ℚ :=
  if m = 0 then none else some (r / (m : ℚ))

/-- `effective_annual_rate(r, m) = (1 + r/m)^m - 1`; `m = 0` raises on
the division `r/m`, and a zero base with negative exponent raises in
`**` (both modelled `none`); no other validation. -/
def effective_annual_rate (r : ℚ) (m : ℤ) : Option ℚ :=
  if m = 0 then none
  else if 1 + r / (m : ℚ) = 0 ∧ m < 0 then none
  else some ((1 + r / (m : ℚ)) ^ m - 1)

/-- `annualized_rate(r, m) = (1 + r)^m - 1`; only a zero base with
negative exponent raises (modelled `none`); no other validation. -/
def annualized_rate (r : ℚ) (m : ℤ) : Option ℚ :=
  if 1 + r = 0 ∧ m < 0 then none
  else some ((1 + r) ^ m - 1)

/-- The discounting loop shared by `net_present_value`,
`profitability_index` and the IRR iteration:
`Σ cash_flows[i] / q^(k+i)` where `q` is the per-period growth factor and
the first flow is discounted `k` periods (the sources start at `k = 1`,
since `m * ((i+1)/m) = i+1`). -/
def discountSum : List ℚ → ℚ → ℕ → ℚ
  | [], _, _ => 0
  | cf :: rest, q, k => cf / q ^ k + discountSum rest q (k + 1)

/-- `net_present_value(initial_investment, cash_flows, r, T=None, m=1)`:
`T` defaults to `len(cash_flows)` and is never used afterwards;
`npv = -I + Σ cf_i / (1 + r/m)^(i+1)`. -/
def net_present_value (initial_investment : ℚ) (cash_flows : List ℚ) (r : ℚ)
    (T : Option ℤ) (m : ℤ) : ℚ :=
  let _T : ℤ := T.getD (cash_flows.length : ℤ);
  -initial_investment + discountSum cash_flows (1 + r / (m : ℚ)) 1

/-- `profitability_index(initial_investment, cash_flows, r, T=None, m=1)`:
`T` defaults to `len(cash_flows)` and is never used afterwards;
`PI = (Σ cf_i / (1 + r/m)^(i+1)) / I`. -/
def profitability_index (initial_investment : ℚ) (cash_flows : List ℚ) (r : ℚ)
    (T : Option ℤ) (m : ℤ) : ℚ :=
  let _T : ℤ := T.getD (cash_flows.length : ℤ);
  discountSum cash_flows (1 + r / (m : ℚ)) 1 / initial_investment

/-- Accumulator of the Newton derivative inside `internal_rate_of_return`:
`Σ -(cf_i * (i+1) / (1 + rate)^(i+2))`, indices starting at `k = 1`. -/
def derivAccum : List ℚ → ℚ → ℕ → ℚ
  | [], _, _ => 0
  | cf :: rest, rate, k => -(cf * (k : ℚ) / (1 + rate) ^ (k + 1)) + derivAccum rest rate (k + 1)

/-- The Newton-Raphson loop of `internal_rate_of_return`.  The returned
`Bool` records whether the loop exited through the convergence test
`abs(npv) < precision` (`true`) as opposed to a zero derivative or fuel
exhaustion (`false`); the source returns only the rate. -/
def irrGo (I : ℚ) (flows : List ℚ) (prec : ℚ) : ℕ → ℚ → ℚ × Bool
  | 0, rate => (rate, false)
  | fuel + 1, rate =>
    let npv := -I + discountSum flows (1 + rate) 1
    let d := derivAccum flows rate 1
    if |npv| < prec then (rate, true)
    else if d = 0 then (rate, false)
    else irrGo I flows prec fuel (rate - npv / d)

/-- `internal_rate_of_return(initial_investment, cash_flows,
max_iter=1000, precision=1e-6)`: Newton-Raphson seeded at `rate = 0.1`. -/
def internal_rate_of_return (initial_investment : ℚ) (cash_flows : List ℚ)
    (max_iter : ℕ) (precision : ℚ) : ℚ :=
  (irrGo initial_investment cash_flows precision max_iter (1 / 10)).1

/-- The scanning loop of `payback_period`: `cum` is the cumulative cash
flow before the current element, `i` the current 0-based index. -/
def paybackGo (I : ℚ) : ℚ → ℕ → List ℚ → Option ℚ
  | _, _, [] => none
  | cum, i, cf :: rest =>
    let cum' := cum + cf
    if I ≤ cum' then some ((i : ℚ) + (I - cum) / cf)
    else paybackGo I cum' (i + 1) rest

/-- `payback_period(initial_investment, cash_flows)`: first index (plus a
linear-interpolation fraction) at which the cumulative flow reaches the
investment; `none` models the `float('inf')` sentinel. -/
def payback_period (initial_investment : ℚ) (cash_flows : List ℚ) : Option ℚ :=
  paybackGo initial_investment 0 0 cash_flows

/-- Scalar-in / scalar-out and single-array-in / same-length-array-out
contract for a 4-argument dual-mode operation. -/
def dualOK4 (g : NV → NV → NV → NV → Except Unit NV) : Prop :=
  (∀ a b c d : ℚ, ∃ v, g (.scalar a) (.scalar b) (.scalar c) (.scalar d) = .ok (.scalar v)) ∧
  (∀ (xs : List ℚ) (b c d : ℚ), ∃ ys, g (.arr xs) (.scalar b) (.scalar c) (.scalar d) = .ok (.arr ys) ∧ ys.length = xs.length) ∧
  (∀ (a : ℚ) (xs : List ℚ) (c d : ℚ), ∃ ys, g (.scalar a) (.arr xs) (.scalar c) (.scalar d) = .ok (.arr ys) ∧ ys.length = xs.length) ∧
  (∀ (a b : ℚ) (xs : List ℚ) (d : ℚ), ∃ ys, g (.scalar a) (.scalar b) (.arr xs) (.scalar d) = .ok (.arr ys) ∧ ys.length = xs.length) ∧
  (∀ (a b c : ℚ) (xs : List ℚ), ∃ ys, g (.scalar a) (.scalar b) (.scalar c) (.arr xs) = .ok (.arr ys) ∧ ys.length = xs.length)

/-- Scalar-in / scalar-out and single-array-in / same-length-array-out
contract for a 5-argument dual-mode operation. -/
def dualOK5 (g : NV → NV → NV → NV → NV → Except Unit NV) : Prop :=
  (∀ a b c d e : ℚ, ∃ v, g (.scalar a) (.scalar b) (.scalar c) (.scalar d) (.scalar e) = .ok (.scalar v)) ∧
  (∀ (xs : List ℚ) (b c d e : ℚ), ∃ ys, g (.arr xs) (.scalar b) (.scalar c) (.scalar d) (.scalar e) = .ok (.arr ys) ∧ ys.length = xs.length) ∧
  (∀ (a : ℚ) (xs : List ℚ) (c d e : ℚ), ∃ ys, g (.scalar a) (.arr xs) (.scalar c) (.scalar d) (.scalar e) = .ok (.arr ys) ∧ ys.length = xs.length) ∧
  (∀ (a b : ℚ) (xs : List ℚ) (d e : ℚ), ∃ ys, g (.scalar a) (.scalar b) (.arr xs) (.scalar d) (.scalar e) = .ok (.arr ys) ∧ ys.length = xs.length) ∧
  (∀ (a b c : ℚ) (xs : List ℚ) (e : ℚ), ∃ ys, g (.scalar a) (.scalar b) (.scalar c) (.arr xs) (.scalar e) = .ok (.arr ys) ∧ ys.length = xs.length) ∧
  (∀ (a b c d : ℚ) (xs : List ℚ), ∃ ys, g (.scalar a) (.scalar b) (.scalar c) (.scalar d) (.arr xs) = .ok (.arr ys) ∧ ys.length = xs.length)

/-! Helper lemmas (shared by several claims). -/

/-- Weak antitonicity of the discounting loop in the growth factor. -/
theorem discountSum_anti (q1 q2 : ℚ) (h0 : 0 < q1) (h12 : q1 < q2) :
    ∀ (flows : List ℚ) (k : ℕ), 1 ≤ k → (∀ cf ∈ flows, 0 ≤ cf) →
      discountSum flows q2 k ≤ discountSum flows q1 k
  | [], _, _, _ => le_refl 0
  | cf :: rest, k, hk, hf => by
    have hq1k : 0 < q1 ^ k := pow_pos h0 k
    have hqk : q1 ^ k ≤ q2 ^ k :=
      le_of_lt (pow_lt_pow_left₀ h12 h0.le (by omega))
    have hcf : 0 ≤ cf := hf cf (List.mem_cons_self cf rest)
    have h1 : cf / q2 ^ k ≤ cf / q1 ^ k := div_le_div_of_nonneg_left hcf hq1k hqk
    have h2 : discountSum rest q2 (k + 1) ≤ discountSum rest q1 (k + 1) :=
      discountSum_anti q1 q2 h0 h12 rest (k + 1) (by omega)
        (fun x hx => hf x (List.mem_cons_of_mem _ hx))
    simpa [discountSum] using add_le_add h1 h2

/-- Strict antitonicity of the discounting loop when some flow is positive. -/
theorem discountSum_anti_strict (q1 q2 : ℚ) (h0 : 0 < q1) (h12 : q1 < q2) :
    ∀ (flows : List ℚ) (k : ℕ), 1 ≤ k → (∀ cf ∈ flows, 0 ≤ cf) →
      (∃ cf ∈ flows, 0 < cf) →
      discountSum flows q2 k < discountSum flows q1 k
  | [], _, _, _, hex => by simp at hex
  | cf :: rest, k, hk, hf, hex => by
    have hq1k : 0 < q1 ^ k := pow_pos h0 k
    have hqk : q1 ^ k < q2 ^ k := pow_lt_pow_left₀ h12 h0.le (by omega)
    have hrest : ∀ x ∈ rest, 0 ≤ x := fun x hx => hf x (List.mem_cons_of_mem _ hx)
    by_cases hcf : 0 < cf
    · have h1 : cf / q2 ^ k < cf / q1 ^ k := div_lt_div_of_pos_left hcf hq1k hqk
      have h2 : discountSum rest q2 (k + 1) ≤ discountSum rest q1 (k + 1) :=
        discountSum_anti q1 q2 h0 h12 rest (k + 1) (by omega) hrest
      simpa [discountSum] using add_lt_add_of_lt_of_le h1 h2
    · rcases hex with ⟨w, hw, hwpos⟩
      rcases List.mem_cons.mp hw with hwc | hwr
      · exact absurd (hwc ▸ hwpos) hcf
      · have h1 : cf / q2 ^ k ≤ cf / q1 ^ k :=
          div_le_div_of_nonneg_left (hf cf (List.mem_cons_self cf rest)) hq1k hqk.le
        have h2 : discountSum rest q2 (k + 1) < discountSum rest q1 (k + 1) :=
          discountSum_anti_strict q1 q2 h0 h12 rest (k + 1) (by omega) hrest
            ⟨w, hwr, hwpos⟩
        simpa [discountSum] using add_lt_add_of_le_of_lt h1 h2

/-- Under nonnegative flows whose running total stays below the target,
the payback scan falls through to the sentinel. -/
theorem paybackGo_none (I : ℚ) :
    ∀ (flows : List ℚ) (cum : ℚ) (i : ℕ),
      (∀ cf ∈ flows, 0 ≤ cf) → cum + flows.sum < I → paybackGo I cum i flows = none
  | [], _, _, _, _ => rfl
  | cf :: rest, cum, i, hf, hsum => by
    have hrest : 0 ≤ rest.sum :=
      List.sum_nonneg (fun x hx => hf x (List.mem_cons_of_mem _ hx))
    have hsum' : cum + cf + rest.sum < I := by
      simp only [List.sum_cons] at hsum; linarith
    have hlt : ¬ I ≤ cum + cf := by linarith
    simp only [paybackGo, if_neg hlt]
    exact paybackGo_none I rest (cum + cf) (i + 1)
      (fun x hx => hf x (List.mem_cons_of_mem _ hx)) hsum'

/-- If the Newton loop exits through its convergence test, the rate it
returns leaves the loop's own NPV expression below the precision. -/
theorem irrGo_converged (I : ℚ) (flows : List ℚ) (prec : ℚ) :
    ∀ (fuel : ℕ) (r0 : ℚ), (irrGo I flows prec fuel r0).2 = true →
      |(-I + discountSum flows (1 + (irrGo I flows prec fuel r0).1) 1)| < prec
  | 0, r0 => by simp [irrGo]
  | fuel + 1, r0 => by
    simp only [irrGo]
    split_ifs with h1 h2
    · intro _; simpa using h1
    · intro hfalse; simp at hfalse
    · exact irrGo_converged I flows prec fuel _

/-! Claim theorems. -/

/-- C3 counterexample: with the mixed-sign series `[-100, 1]` — which
contains a positive flow — `net_present_value` is *not* decreasing in the
rate: its value at rate 0 is below its value at rate 1. -/
theorem npv_not_antitone_mixed_flows :
    (∃ cf ∈ ([-100, 1] : List ℚ), 0 < cf) ∧ (0 : ℚ) < 1 ∧
      net_present_value 0 [-100, 1] 0 none 1 <
        net_present_value 0 [-100, 1] 1 none 1 := by decide

/-- C3 (amended): `net_present_value` is strictly decreasing in the rate
for every cash-flow series whose flows are all nonnegative with at least
one positive, on the domain where the discount base stays positive. -/
theorem npv_strict_anti_in_rate (I : ℚ) (flows : List ℚ) (r1 r2 : ℚ)
    (T : Option ℤ) (m : ℤ) (hm : 0 < m) (hq : 0 < 1 + r1 / (m : ℚ))
    (hr : r1 < r2) (hf : ∀ cf ∈ flows, 0 ≤ cf) (hex : ∃ cf ∈ flows, 0 < cf) :
    net_present_value I flows r2 T m < net_present_value I flows r1 T m := by
  have hm' : (0 : ℚ) < (m : ℚ) := by exact_mod_cast hm
  have hlt : 1 + r1 / (m : ℚ) < 1 + r2 / (m : ℚ) := by
    have : r1 / (m : ℚ) < r2 / (m : ℚ) := by gcongr
    linarith
  have hmain := discountSum_anti_strict _ _ hq hlt flows 1 le_rfl hf hex
  simp only [net_present_value]
  linarith

/-- C3 witness: the amended monotonicity at `I = 0`, `flows = [1]`,
`r1 = 0 < r2 = 1`, `m = 1`. -/
theorem npv_strict_anti_in_rate_witness :
    (0 : ℤ) < 1 ∧ (0 : ℚ) < 1 + 0 / ((1 : ℤ) : ℚ) ∧ (0 : ℚ) < 1 ∧
      (∀ cf ∈ ([1] : List ℚ), 0 ≤ cf) ∧ (∃ cf ∈ ([1] : List ℚ), 0 < cf) ∧
      net_present_value 0 [1] 1 none 1 < net_present_value 0 [1] 0 none 1 :=
  ⟨by decide, by decide, by decide, by decide, by decide,
    npv_strict_anti_in_rate 0 [1] 0 1 none 1 (by decide) (by decide)
      (by decide) (by decide) (by decide)⟩

/-- C4 counterexample: with `I = 5` and `flows = [10, -20]` the total sum
`-10` is below the investment, yet `payback_period` returns the finite
value `1/2` instead of the "never recovers" sentinel. -/
theorem payback_finite_despite_small_sum :
    ([10, -20] : List ℚ).sum < 5 ∧ payback_period 5 [10, -20] = some (1 / 2) := by
  decide

/-- C4 (amended): for *nonnegative* cash flows whose total sum is strictly
below the initial investment, `payback_period` returns the "never
recovers" sentinel (`float('inf')`, modelled `none`). -/
theorem payback_sentinel_of_sum_lt (I : ℚ) (flows : List ℚ)
    (hf : ∀ cf ∈ flows, 0 ≤ cf) (hsum : flows.sum < I) :
    payback_period I flows = none :=
  paybackGo_none I flows 0 0 hf (by simpa using hsum)

/-- C4 witness: the sentinel at `I = 5`, `flows = [1, 1]`. -/
theorem payback_sentinel_of_sum_lt_witness :
    (∀ cf ∈ ([1, 1] : List ℚ), 0 ≤ cf) ∧ ([1, 1] : List ℚ).sum < 5 ∧
      payback_period 5 [1, 1] = none :=
  ⟨by decide, by decide, payback_sentinel_of_sum_lt 5 [1, 1] (by decide) (by decide)⟩

/-- C5: whenever the Newton iteration of `internal_rate_of_return` exits
through its convergence test (`|npv| < precision`), the returned rate
satisfies `|net_present_value(I, flows, rate)| < precision` with `m = 1`. -/
theorem irr_fixed_point (I : ℚ) (flows : List ℚ) (fuel : ℕ) (prec : ℚ)
    (h : (irrGo I flows prec fuel (1 / 10)).2 = true) :
    |net_present_value I flows (internal_rate_of_return I flows fuel prec) none 1| < prec := by
  have hmain := irrGo_converged I flows prec fuel (1 / 10) h
  simpa [net_present_value, internal_rate_of_return] using hmain

/-- C5 witness: at `I = 100`, `flows = [110]` the seed `0.1` is an exact
root, so the very first convergence test fires. -/
theorem irr_fixed_point_witness :
    (irrGo 100 [110] (1 / 1000000) 1000 (1 / 10)).2 = true ∧
      |net_present_value 100 [110]
          (internal_rate_of_return 100 [110] 1000 (1 / 1000000)) none 1| <
        1 / 1000000 :=
  ⟨by decide, irr_fixed_point 100 [110] 1000 (1 / 1000000) (by decide)⟩

/-- C9: the `T` parameter of `net_present_value` and
`profitability_index` is accepted (and defaulted) but never used, so the
results are identical for any two values of `T`. -/
theorem npv_pi_independent_of_T (I : ℚ) (flows : List ℚ) (r : ℚ) (m : ℤ)
    (T1 T2 : Option ℤ) :
    net_present_value I flows r T1 m = net_present_value I flows r T2 m ∧
      profitability_index I flows r T1 m = profitability_index I flows r T2 m :=
  ⟨rfl, rfl⟩

/-- C10: with an empty cash-flow list the Newton loop computes
`npv = -I` and derivative `0`, so the rate is never updated and
`internal_rate_of_return` returns the seed `0.1` for every investment,
iteration bound and precision. -/
theorem irr_empty_flows_returns_seed (I : ℚ) (fuel : ℕ) (prec : ℚ) :
    internal_rate_of_return I [] fuel prec = 1 / 10 := by
  cases fuel with
  | zero => rfl
  | succ n =>
    simp only [internal_rate_of_return, irrGo, discountSum, derivAccum]
    split_ifs <;> rfl

/-- Broadcasting a single array length always succeeds with that length. -/
theorem commonLen_singleton (n : ℕ) : commonLen [n] = some n := by
  by_cases h : n = 1
  · subst h; rfl
  · simp [commonLen, List.filter_cons, h]

/-- The generic broadcast applier of 4-ary formulas satisfies the
scalar/array duality contract. -/
theorem bapp4_dual (f : ℚ → ℚ → ℚ → ℚ → ℚ) : dualOK4 (bapp4 f) := by
  refine ⟨fun a b c d => ⟨f a b c d, rfl⟩, ?_, ?_, ?_, ?_⟩
  · intro xs b c d
    exact ⟨(List.range xs.length).map fun i => f (NV.bget (.arr xs) i) b c d,
      by simp [bapp4, nvLens, List.filterMap_cons, commonLen_singleton, NV.bget], by simp⟩
  · intro a xs c d
    exact ⟨(List.range xs.length).map fun i => f a (NV.bget (.arr xs) i) c d,
      by simp [bapp4, nvLens, List.filterMap_cons, commonLen_singleton, NV.bget], by simp⟩
  · intro a b xs d
    exact ⟨(List.range xs.length).map fun i => f a b (NV.bget (.arr xs) i) d,
      by simp [bapp4, nvLens, List.filterMap_cons, commonLen_singleton, NV.bget], by simp⟩
  · intro a b c xs
    exact ⟨(List.range xs.length).map fun i => f a b c (NV.bget (.arr xs) i),
      by simp [bapp4, nvLens, List.filterMap_cons, commonLen_singleton, NV.bget], by simp⟩

/-- The generic broadcast applier of 5-ary formulas satisfies the
scalar/array duality contract. -/
theorem bapp5_dual (f : ℚ → ℚ → ℚ → ℚ → ℚ → ℚ) : dualOK5 (bapp5 f) := by
  refine ⟨fun a b c d e => ⟨f a b c d e, rfl⟩, ?_, ?_, ?_, ?_, ?_⟩
  · intro xs b c d e
    exact ⟨(List.range xs.length).map fun i => f (NV.bget (.arr xs) i) b c d e,
      by simp [bapp5, nvLens, List.filterMap_cons, commonLen_singleton, NV.bget], by simp⟩
  · intro a xs c d e
    exact ⟨(List.range xs.length).map fun i => f a (NV.bget (.arr xs) i) c d e,
      by simp [bapp5, nvLens, List.filterMap_cons, commonLen_singleton, NV.bget], by simp⟩
  · intro a b xs d e
    exact ⟨(List.range xs.length).map fun i => f a b (NV.bget (.arr xs) i) d e,
      by simp [bapp5, nvLens, List.filterMap_cons, commonLen_singleton, NV.bget], by simp⟩
  · intro a b c xs e
    exact ⟨(List.range xs.length).map fun i => f a b c (NV.bget (.arr xs) i) e,
      by simp [bapp5, nvLens, List.filterMap_cons, commonLen_singleton, NV.bget], by simp⟩
  · intro a b c d xs
    exact ⟨(List.range xs.length).map fun i => f a b c d (NV.bget (.arr xs) i),
      by simp [bapp5, nvLens, List.filterMap_cons, commonLen_singleton, NV.bget], by simp⟩

/-- C1: evaluating the source's `batch_loan_analysis` at the concrete
loans `principals = [1000]`, `rates = [2]`, `periods = [10]` shows the
`payments` entry is `payment_amount` applied with the *principal* in the
rate slot, the *rate* in the periods slot and the *period* in the
principal slot — not `payment_amount(rates[0], periods[0], principals[0])`
as the documentation and the spec state. -/
theorem batch_swapped_args :
    (batch_loan_analysis [1000] [2] [10]).toOption.map (fun res => res.payments) =
        some (NV.arr [pmtScalar 1000 2 10 0]) ∧
      pmtScalar 1000 2 10 0 ≠ pmtScalar 2 10 1000 0 := by
  decide

/-- C2 counterexample: the code's `net_present_value(10000,
[3000, 4000, 5000], 0.10, 3, 1)` is exactly `-280000/1331 ≈ -210.37`,
which is not within any approximation tolerance of the claimed `-199.21`
(the difference exceeds 11). -/
theorem npv_scenario_value_wrong :
    net_present_value 10000 [3000, 4000, 5000] (1 / 10) (some 3) 1 = -280000 / 1331 ∧
      ¬ |net_present_value 10000 [3000, 4000, 5000] (1 / 10) (some 3) 1 - (-19921 / 100)| < 1 := by
  decide

set_option maxRecDepth 40000 in
/-- C2 (amended): the present-value and payment scenarios hold as stated
(`≈ 613.91` and `≈ 599.55` to two decimals), while the two NPV scenarios
evaluate to `≈ -210.37` and `≈ 1033.06` rather than the claimed
`-199.21` and `1061.57`. -/
theorem scenario_values_amended :
    present_value (NV.scalar (1 / 20)) (NV.scalar 10) (NV.scalar 0) (NV.scalar 1000) =
        .ok (NV.scalar (pvScalar (1 / 20) 10 0 1000)) ∧
      |pvScalar (1 / 20) 10 0 1000 - 61391 / 100| < 1 / 100 ∧
      payment_amount (NV.scalar (1 / 200)) (NV.scalar 360) (NV.scalar 100000) (NV.scalar 0) =
        .ok (NV.scalar (pmtScalar (1 / 200) 360 100000 0)) ∧
      |pmtScalar (1 / 200) 360 100000 0 - 59955 / 100| < 1 / 100 ∧
      |net_present_value 10000 [3000, 4000, 5000] (1 / 10) (some 3) 1 - (-21037 / 100)| < 1 / 100 ∧
      |net_present_value 10000 [3500, 4500, 5500] (1 / 10) (some 3) 1 - 103306 / 100| < 1 / 100 :=
  ⟨rfl, by decide, rfl, by decide, by decide, by decide⟩

/-- C6 counterexample: the three input arrays have lengths 1, 2, 2 —
not all the same length — yet `batch_loan_analysis` succeeds by numpy
broadcasting (length 1 broadcasts) instead of failing with a shape
error. -/
theorem batch_broadcast_length_one_ok :
    (batch_loan_analysis [1000] [2, 2] [10, 10]).toOption.isSome = true ∧
      ([1000] : List ℚ).length ≠ ([2, 2] : List ℚ).length := by
  decide

/-- Forward direction: non-broadcastable lengths make the first
vectorized call of `batch_loan_analysis` raise, so the batch fails. -/
theorem batch_error_of_incompatible (p r t : List ℚ)
    (h : commonLen [p.length, r.length, t.length] = none) :
    batch_loan_analysis p r t = .error () := by
  have hfirst : payment_amount (.arr p) (.arr r) (.arr t) (.scalar 0) = .error () := by
    simp [payment_amount, bapp4, nvLens, List.filterMap_cons, h]
  unfold batch_loan_analysis
  rw [hfirst]
  rfl

/-- Every length in a broadcastable length list is 1 or the common
broadcast length. -/
theorem commonLen_mem (ls : List ℕ) (L : ℕ) (h : commonLen ls = some L) :
    ∀ n ∈ ls, n = 1 ∨ n = L := by
  intro n hn
  by_cases h1 : n = 1
  · exact Or.inl h1
  right
  have hnf : n ∈ ls.filter (fun m => m != 1) :=
    List.mem_filter.mpr ⟨hn, by simpa using h1⟩
  unfold commonLen at h
  rcases hf : ls.filter (fun m => m != 1) with _ | ⟨c, rest⟩
  · rw [hf] at hnf
    simp at hnf
  · rw [hf] at h hnf
    simp only at h
    split at h
    · next hall =>
      have hc : c = L := by simpa using h
      rcases List.mem_cons.mp hnf with rfl | hmem
      · exact hc
      · have hbeq := List.all_eq_true.mp hall n hmem
        subst hc
        simpa using hbeq
    · simp at h

/-- A length that is 1 or `L` broadcasts against `L` to `L`. -/
theorem commonLen_pair (L n : ℕ) (h : n = 1 ∨ n = L) : commonLen [L, n] = some L := by
  by_cases hL : L = 1
  · subst hL
    rcases h with rfl | rfl <;> rfl
  · rcases h with rfl | rfl
    · simp [commonLen, List.filter_cons, hL]
    · simp [commonLen, List.filter_cons, hL]

/-- A 4-ary broadcast over three arrays and a scalar succeeds with the
common length whenever the three lengths are broadcast-compatible. -/
theorem bapp4_ok_len (f : ℚ → ℚ → ℚ → ℚ → ℚ) (p r t : List ℚ) (z : ℚ) (L : ℕ)
    (h : commonLen [p.length, r.length, t.length] = some L) :
    ∃ u : List ℚ, bapp4 f (.arr p) (.arr r) (.arr t) (.scalar z) = .ok (.arr u) ∧
      u.length = L :=
  ⟨(List.range L).map fun i =>
      f ((NV.arr p).bget i) ((NV.arr r).bget i) ((NV.arr t).bget i) z,
    by simp [bapp4, nvLens, List.filterMap_cons, h, NV.bget], by simp⟩

/-- A 5-ary broadcast over three arrays and two scalars succeeds with the
common length whenever the three lengths are broadcast-compatible. -/
theorem bapp5_ok_len (f : ℚ → ℚ → ℚ → ℚ → ℚ → ℚ) (p r t : List ℚ) (y z : ℚ) (L : ℕ)
    (h : commonLen [p.length, r.length, t.length] = some L) :
    ∃ u : List ℚ, bapp5 f (.arr p) (.arr r) (.scalar y) (.arr t) (.scalar z) = .ok (.arr u) ∧
      u.length = L :=
  ⟨(List.range L).map fun i =>
      f ((NV.arr p).bget i) ((NV.arr r).bget i) y ((NV.arr t).bget i) z,
    by simp [bapp5, nvLens, List.filterMap_cons, h, NV.bget], by simp⟩

/-- A binary broadcast over two arrays succeeds with the common length
whenever the two lengths are broadcast-compatible. -/
theorem bapp2_ok_len (f : ℚ → ℚ → ℚ) (v w : List ℚ) (L : ℕ)
    (h : commonLen [v.length, w.length] = some L) :
    ∃ u : List ℚ, bapp2 f (.arr v) (.arr w) = .ok (.arr u) ∧ u.length = L :=
  ⟨(List.range L).map fun i => f ((NV.arr v).bget i) ((NV.arr w).bget i),
    by simp [bapp2, nvLens, List.filterMap_cons, h, NV.bget], by simp⟩

/-- Binding a successful `Except` computation applies the continuation. -/
theorem exceptBind_ok {α β : Type} (a : α) (k : α → Except Unit β) :
    (Except.ok a : Except Unit α) >>= k = k a := rfl

/-- `pure` on `Except` is `Except.ok`. -/
theorem exceptPure_ok {α : Type} (a : α) : (pure a : Except Unit α) = Except.ok a := rfl

/-- Converse direction: broadcast-compatible lengths make every step of
`batch_loan_analysis` succeed, so the batch does not fail. -/
theorem batch_ok_of_compatible (p r t : List ℚ) (L : ℕ)
    (h : commonLen [p.length, r.length, t.length] = some L) :
    batch_loan_analysis p r t ≠ .error () := by
  have hp := commonLen_mem _ _ h p.length (by simp)
  have ht := commonLen_mem _ _ h t.length (by simp)
  obtain ⟨v1, h1, l1⟩ := bapp4_ok_len pmtScalar p r t 0 L h
  obtain ⟨v2, h2, _⟩ := bapp5_ok_len ipmtScalar p r t 1 0 L h
  obtain ⟨v3, h3, _⟩ := bapp5_ok_len ppmtScalar p r t 1 0 L h
  obtain ⟨v4, h4, l4⟩ := bapp2_ok_len (fun x y => x * y) v1 t L
    (by rw [l1]; exact commonLen_pair L t.length ht)
  obtain ⟨v5, h5, l5⟩ := bapp2_ok_len (fun x y => x - y) v4 p L
    (by rw [l4]; exact commonLen_pair L p.length hp)
  obtain ⟨v6, h6, _⟩ := bapp2_ok_len (fun x y => x / y) v5 p L
    (by rw [l5]; exact commonLen_pair L p.length hp)
  intro hbad
  simp only [batch_loan_analysis, payment_amount, payment_interest, payment_principal,
    h1, h2, h3, h4, h5, h6, exceptBind_ok, exceptPure_ok] at hbad
  exact Except.noConfusion hbad

/-- C6 (amended): `batch_loan_analysis` fails with a shape error exactly
when the three array lengths are not numpy-broadcast-compatible (some two
lengths differ with neither equal to 1); every equal-or-1 length
combination — in particular a length-1 array with longer equal-length
arrays — succeeds. -/
theorem batch_shape_error_iff_incompatible (p r t : List ℚ) :
    batch_loan_analysis p r t = .error () ↔
      commonLen [p.length, r.length, t.length] = none := by
  constructor
  · intro hb
    rcases hc : commonLen [p.length, r.length, t.length] with _ | L
    · rfl
    · exact absurd hb (batch_ok_of_compatible p r t L hc)
  · exact batch_error_of_incompatible p r t

/-- C7 counterexample: at `m = -1 ≤ 0`, `nominal_to_effective_rate`
returns the numeric value `r / m` rather than failing with any error. -/
theorem rate_conversion_negative_m_returns_value :
    (-1 : ℤ) ≤ 0 ∧ nominal_to_effective_rate (12 / 100) (-1) = some (-(12 / 100)) := by
  decide

/-- C7 (amended): the rate conversions perform no domain validation.
For every `m < 0` (away from the formulas' poles) all three return a
numeric value; at `m = 0` only the two that divide by `m` raise (a
`ZeroDivisionError`, not a `DomainError`), while `annualized_rate`
returns `0`. -/
theorem rate_conversion_no_domain_check (r : ℚ) (m : ℤ) (hm : m < 0)
    (h1 : 1 + r / (m : ℚ) ≠ 0) (h2 : 1 + r ≠ 0) :
    (nominal_to_effective_rate r m).isSome = true ∧
      (effective_annual_rate r m).isSome = true ∧
      (annualized_rate r m).isSome = true ∧
      nominal_to_effective_rate r 0 = none ∧
      effective_annual_rate r 0 = none ∧
      annualized_rate r 0 = some 0 := by
  have hm0 : m ≠ 0 := by omega
  refine ⟨?_, ?_, ?_, rfl, rfl, ?_⟩
  · simp [nominal_to_effective_rate, hm0]
  · simp [effective_annual_rate, hm0, h1]
  · simp [annualized_rate, h2]
  · simp [annualized_rate]

/-- C7 witness: the amended behaviour at `r = 0.12`, `m = -2`. -/
theorem rate_conversion_no_domain_check_witness :
    (-2 : ℤ) < 0 ∧ (1 : ℚ) + (12 / 100) / ((-2 : ℤ) : ℚ) ≠ 0 ∧ (1 : ℚ) + 12 / 100 ≠ 0 ∧
      (nominal_to_effective_rate (12 / 100) (-2)).isSome = true ∧
      (effective_annual_rate (12 / 100) (-2)).isSome = true ∧
      (annualized_rate (12 / 100) (-2)).isSome = true ∧
      nominal_to_effective_rate (12 / 100) 0 = none ∧
      effective_annual_rate (12 / 100) 0 = none ∧
      annualized_rate (12 / 100) 0 = some 0 :=
  ⟨by decide, by decide, by decide,
    rate_conversion_no_domain_check (12 / 100) (-2) (by decide) (by decide) (by decide)⟩

/-- C8: each dual-mode numeric operation (`present_value`,
`future_value`, `payment_amount`, `payment_interest`,
`payment_principal`) returns a scalar when all inputs are scalars, and an
array of length `L` when one input is an array of length `L` and the
others are scalars. -/
theorem scalar_array_duality :
    dualOK4 present_value ∧ dualOK4 future_value ∧ dualOK4 payment_amount ∧
      dualOK5 payment_interest ∧ dualOK5 payment_principal :=
  ⟨bapp4_dual pvScalar, bapp4_dual fvScalar, bapp4_dual pmtScalar,
    bapp5_dual ipmtScalar, bapp5_dual ppmtScalar⟩

end MatFin
